import Mathlib

/-
Verification development for the micropath routing framework.

The embedding models the element tree (micropath/elements.py), the merge
algorithm, the binding-order topological sort, the dispatcher
(micropath/controller.py) and the dependency-injection engine
(micropath/injector.py) as executable Lean functions over explicit state.

Element objects live in a heap (`Store`, a total function from numeric
object ids to `Elem` records) because the Python code mutates shared
structure: parent pointers, master aliases and child maps.  Functions that
are recursive in Python without a structural bound take an explicit fuel
argument; all recursion here is structural so that every definition
evaluates inside the kernel.
-/

namespace Micropath

/-- Concrete element classes: Root, Path, Binding and Method
(micropath/elements.py).  `isinstance(other, self.__class__)` in
`Element.merge` reduces to equality of the concrete class because the
four classes have no subclass relations among themselves. -/
inductive Kind where
  | root
  | path
  | binding
  | method
deriving DecidableEq, Repr

/-- Selector for the three subordinate maps of an element
(`paths`, `bindings`, `methods`). -/
inductive MapSel where
  | paths
  | bindings
  | methods
deriving DecidableEq, Repr

/-- One element of the routing tree, mirroring the attributes set in
`Element.__init__` (and `Method.__init__` for `func`).  Child maps are
association lists from ident (`Option String`: `none` is the null verb of
a fallback `Method`; `paths` and `bindings` always use `some` keys) to
the child's object id.  `delegation` and `master` hold object ids of the
delegation and of the merge master (`_delegation` / `_master`). -/
structure Elem where
  kind : Kind
  ident : Option String := none
  parent : Option Nat := none
  paths : List (Option String × Nat) := []
  bindings : List (Option String × Nat) := []
  methods : List (Option String × Nat) := []
  func : Option Nat := none
  delegation : Option Nat := none
  master : Option Nat := none
deriving DecidableEq, Repr

/-- The heap of elements, indexed by object id. -/
def Store : Type := Nat → Elem

/-- Dictionary lookup on an association list keyed by idents, mirroring
`dict.__getitem__` / `dict.get`. -/
def lookupKey : List (Option String × Nat) → Option String → Option Nat
  | [], _ => none
  | (k', v) :: rest, k => if k' = k then some v else lookupKey rest k

/-- Dictionary assignment on an association list: replace in place when
the key exists, append otherwise (Python dict insertion order). -/
def setKey : List (Option String × Nat) → Option String → Nat → List (Option String × Nat)
  | [], k, v => [(k, v)]
  | (k', v') :: rest, k, v =>
      if k' = k then (k', v) :: rest else (k', v') :: setKey rest k v

/-- Update one element of the store in place. -/
def updateElem (st : Store) (i : Nat) (f : Elem → Elem) : Store :=
  fun j => if j = i then f (st j) else st j

/-- Read one of the three subordinate maps. -/
def Elem.getMap (e : Elem) : MapSel → List (Option String × Nat)
  | .paths => e.paths
  | .bindings => e.bindings
  | .methods => e.methods

/-- Replace one of the three subordinate maps. -/
def Elem.setMap (e : Elem) : MapSel → List (Option String × Nat) → Elem
  | .paths, m => { e with paths := m }
  | .bindings, m => { e with bindings := m }
  | .methods, m => { e with methods := m }

/-- The `Element.delegation` property: defer to the master when one is
set, else return the raw `_delegation` field.  Master chains are chased
with fuel. -/
def delegationOf : Nat → Store → Nat → Option Nat
  | 0, _, _ => none
  | fuel + 1, st, i =>
      match (st i).master with
      | some m => delegationOf fuel st m
      | none => (st i).delegation

/-- The while loop of `Element.merge` that walks the chain of masters of
the absorbed element, repointing every link at `self._master or self`
(which is `selfId` because merge already deferred to its own master), and
returns the final element of the chain as the element actually merged. -/
def walkMasters : Nat → Store → Nat → Nat → Store × Nat
  | 0, st, _, otherId => (st, otherId)
  | fuel + 1, st, selfId, otherId =>
      match (st otherId).master with
      | none => (st, otherId)
      | some nextMaster =>
          walkMasters fuel
            (updateElem st otherId
              (fun e => { e with master := some (((st selfId).master).getD selfId) }))
            selfId nextMaster

/-- The loop body of `Element.merge` that re-inserts the absorbed
element's children into the surviving element's map: a collision calls
`merge` on the existing entry (through `MergingMap.__setitem__`), then
the child's parent is pointed at the surviving element.  The merge
recursion is abstracted as the parameter `mf` so that the definition is
structurally recursive on the child list. -/
def insertChildrenG (mf : Store → Nat → Nat → Except (String × Store) Store)
    (st : Store) (selfId : Nat) (sel : MapSel) :
    List (Option String × Nat) → Except (String × Store) Store
  | [] => .ok st
  | (k, cid) :: rest =>
      match lookupKey ((st selfId).getMap sel) k with
      | some existing =>
          match mf st existing cid with
          | .error e => .error e
          | .ok st' =>
              insertChildrenG mf
                (updateElem st' cid (fun e => { e with parent := some selfId }))
                selfId sel rest
      | none =>
          insertChildrenG mf
            (updateElem
              (updateElem st selfId
                (fun e => e.setMap sel (setKey (e.getMap sel) k cid)))
              cid (fun e => { e with parent := some selfId }))
            selfId sel rest

/-- The closing mutations of `Element.merge` after the re-insertion
loop: the absorbed element's maps are replaced with (references to) the
surviving element's maps (`other.paths = self.paths` and friends), a
delegation on the absorbed element moves to the surviving one, the
absorbed element's delegation is cleared, and its master is set to
`self._master or self`. -/
def mergeFinish (st4 : Store) (selfId oF : Nat) : Store :=
  let st5 := updateElem st4 oF
    (fun e => { e with paths := (st4 selfId).paths, bindings := (st4 selfId).bindings,
                       methods := (st4 selfId).methods })
  let st6 :=
    match (st5 oF).delegation with
    | some d => updateElem st5 selfId (fun e => { e with delegation := some d })
    | none => st5
  let st7 := updateElem st6 oF (fun e => { e with delegation := none })
  updateElem st7 oF
    (fun e => { e with master := some (((st7 selfId).master).getD selfId) })

/-- The tail of `Element.merge` after all validation has passed: walk the
absorbed element's master chain, re-insert its three child maps, then
apply the closing mutations of `mergeFinish`. -/
def mergeMainG (mf : Store → Nat → Nat → Except (String × Store) Store)
    (wm : Store → Nat → Nat → Store × Nat)
    (st : Store) (selfId otherId : Nat) : Except (String × Store) Store :=
  match wm st selfId otherId with
  | (st1, oF) =>
    match insertChildrenG mf st1 selfId .paths ((st1 oF).paths) with
    | .error e => .error e
    | .ok st2 =>
      match insertChildrenG mf st2 selfId .bindings ((st2 oF).bindings) with
      | .error e => .error e
      | .ok st3 =>
        match insertChildrenG mf st3 selfId .methods ((st3 oF).methods) with
        | .error e => .error e
        | .ok st4 => .ok (mergeFinish st4 selfId oF)

/-- The validation prefix of `Element.merge`: defer to the master,
reject differing classes, differing idents, conflicting delegations, and
mismatched positions in the tree; when both elements have distinct
parents, merge the parents instead.  Errors carry the store at the point
of raising, which models the state the Python exception leaves behind. -/
def mergeStep (mf : Store → Nat → Nat → Except (String × Store) Store)
    (wm : Store → Nat → Nat → Store × Nat)
    (dlg : Store → Nat → Option Nat)
    (st : Store) (selfId otherId : Nat) : Except (String × Store) Store :=
  if (st selfId).kind ≠ (st otherId).kind then
    .error ("cannot merge different element classes", st)
  else if (st selfId).ident ≠ (st otherId).ident then
    .error ("cannot merge with unequal idents", st)
  else if (st selfId).delegation.isSome ∧ (dlg st otherId).isSome ∧
          (st selfId).delegation ≠ dlg st otherId then
    .error ("cannot merge due to conflicting delegations", st)
  else
    match (st selfId).parent, (st otherId).parent with
    | some sp, some op =>
        if sp ≠ op then mf st sp op else mergeMainG mf wm st selfId otherId
    | none, none => mergeMainG mf wm st selfId otherId
    | _, _ => .error ("cannot merge elements at different places in the tree", st)

/-- `Element.merge`, with fuel bounding the recursion depth (master
deferral, parent merging and child-collision merging). -/
def mergeFuel : Nat → Store → Nat → Nat → Except (String × Store) Store
  | 0, st, _, _ => .error ("merge recursion exceeded fuel", st)
  | fuel + 1, st, selfId, otherId =>
      match (st selfId).master with
      | some m => mergeFuel fuel st m otherId
      | none =>
          mergeStep (mergeFuel fuel) (walkMasters fuel) (delegationOf (fuel + 1))
            st selfId otherId

/-- Lexicographic comparison of character lists by code point,
modelling Python string comparison. -/
def charListLe : List Char → List Char → Bool
  | [], _ => true
  | _ :: _, [] => false
  | c :: cs, d :: ds =>
      if c.toNat < d.toNat then true
      else if d.toNat < c.toNat then false
      else charListLe cs ds

/-- String comparison by code points (Python string ordering). -/
def strLe (a b : String) : Bool := charListLe a.data b.data

/-- Insertion of one string into a list sorted ascending (used to model
Python `sorted` on idents). -/
def insertSorted (x : String) : List String → List String
  | [] => [x]
  | y :: ys => if strLe x y then x :: y :: ys else y :: insertSorted x ys

/-- Ascending lexicographic sort of idents, modelling Python `sorted`. -/
def sortStr (l : List String) : List String :=
  l.foldr insertSorted []

/-- The data of one `Binding` relevant to the order resolver: its ident
and its `before` / `after` sets (sets of sibling bindings, identified by
ident because `Binding.__eq__` and `__hash__` compare idents). -/
structure BindingData where
  ident : String
  before : List String := []
  after : List String := []
deriving DecidableEq, Repr

/-- Set-union insertion into the adjacency dictionary
(`adjacency[k] |= vs` over a `defaultdict` of sets). -/
def adjInsert : List (String × List String) → String → List String → List (String × List String)
  | [], k, vs => [(k, vs.dedup)]
  | (k', vs') :: rest, k, vs =>
      if k' = k then (k', vs' ++ (vs.filter (fun v => ¬ v ∈ vs')).dedup) :: rest
      else (k', vs') :: adjInsert rest k vs

/-- Membership of a key in the adjacency dictionary. -/
def adjGet : List (String × List String) → String → Option (List String)
  | [], _ => none
  | (k', vs) :: rest, k => if k' = k then some vs else adjGet rest k

/-- `adjacency.pop(item)`. -/
def adjPop (adj : List (String × List String)) (k : String) : List (String × List String) :=
  adj.filter (fun p => ¬ p.1 = k)

/-- Adjacency construction of `BindingMap.__iter__`: each binding
contributes its `before` set to its own adjacency entry, and each member
of its `after` set receives a self edge (`adjacency[other].add(other)` in
the source, which is the line the order resolver uses for `after`). -/
def buildAdj (bs : List BindingData) : List (String × List String) :=
  bs.foldl
    (fun adj b =>
      (b.after).foldl (fun a other => adjInsert a other [other])
        (adjInsert adj b.ident b.before))
    []

/-- An entry of the work queue of `BindingMap._visit`: the binding and
the remaining contents of its dependency iterator
(`sorted(adjacency.pop(item), reverse=True)`). -/
structure VisitElem where
  binding : String
  before : List String
deriving DecidableEq, Repr

/-- `elements._from_adj`: pop the item from the adjacency dictionary and
pair it with its dependency set sorted in reverse. -/
def fromAdj (adj : List (String × List String)) (k : String) :
    List (String × List String) × VisitElem :=
  (adjPop adj k, ⟨k, (sortStr ((adjGet adj k).getD [])).reverse⟩)

/-- The work-queue loop of `BindingMap._visit` (fuelled): take the next
dependency of the top entry, push it when it is still in the adjacency
dictionary, and append the top entry to the order once its iterator is
exhausted. -/
def visitLoop : Nat → List (String × List String) → List VisitElem → List String →
    List (String × List String) × List String
  | 0, adj, _, order => (adj, order)
  | fuel + 1, adj, queue, order =>
      match queue with
      | [] => (adj, order)
      | ve :: qrest =>
          match ve.before with
          | [] => visitLoop fuel adj qrest (order ++ [ve.binding])
          | b :: brest =>
              match adjGet adj b with
              | some _ =>
                  match fromAdj adj b with
                  | (adj', ve') =>
                      visitLoop fuel adj' (ve' :: ⟨ve.binding, brest⟩ :: qrest) order
              | none => visitLoop fuel adj (⟨ve.binding, brest⟩ :: qrest) order

/-- `BindingMap.__iter__`: build the adjacency dictionary, run the
depth-first visits over candidate roots in reverse lexicographic order,
and reverse the accumulated order. -/
def bindingOrder (fuel : Nat) (bs : List BindingData) : List String :=
  let adj := buildAdj bs
  let start := (sortStr (adj.map Prod.fst)).reverse
  let result := start.foldl
    (fun acc k =>
      match adjGet acc.1 k with
      | some _ =>
          match fromAdj acc.1 k with
          | (adj', ve) => visitLoop fuel adj' [ve] acc.2
      | none => acc)
    (adj, ([] : List String))
  result.2.reverse

/-- Outcomes of `Controller._micropath_dispatch`.  A handler invocation
and a delegation recursion are recorded symbolically together with the
`urlvars` sink accumulated during resolution; the error hooks
(`micropath_not_found`, `micropath_not_implemented`, `micropath_options`)
become the corresponding constructors, and an uncaught exception (which
`Controller.__call__` turns into a 500 response through
`micropath_server_error`) becomes `serverError`. -/
inductive Outcome where
  | handler (func : Nat) (urlvars : List (String × String))
  | delegated (deleg : Nat) (urlvars : List (String × String))
  | notFound
  | notImplemented (verb : String)
  | options (verbs : List String)
  | serverError (msg : String)
deriving DecidableEq, Repr

/-- The method lookup of `Controller._micropath_delegation`:
`elem.methods.get('GET' if req.method == 'HEAD' else req.method,
elem.methods.get(None))`. -/
def methLookup (st : Store) (elemId : Nat) (verb : String) : Option Nat :=
  match lookupKey (st elemId).methods (some (if verb = "HEAD" then "GET" else verb)) with
  | some m => some m
  | none => lookupKey (st elemId).methods none

/-- `Controller._micropath_delegation`: the pair of the matched method's
handler and the effective delegation (`meth.delegation or
elem.delegation` when a method matched, else `elem.delegation`). -/
def micropathDelegation (fuel : Nat) (st : Store) (elemId : Nat) (verb : String) :
    Option Nat × Option Nat :=
  match methLookup st elemId verb with
  | some mid =>
      ((st mid).func,
        match delegationOf fuel st mid with
        | some d => some d
        | none => delegationOf fuel st elemId)
  | none => (none, delegationOf fuel st elemId)

/-- The fixed method set `Controller.micropath_methods` (order is
irrelevant: the computed collection models a Python set). -/
def defaultMethods : List String :=
  ["HEAD", "GET", "PUT", "POST", "DELETE", "OPTIONS"]

/-- `Controller._micropath_methods`: all non-null verb keys, plus the
default set when a null-verb method exists, plus HEAD when GET is
present, plus OPTIONS.  The resulting list models a Python set: only
membership is meaningful. -/
def micropathMethods (st : Store) (elemId : Nat) : List String :=
  let meths := (st elemId).methods.filterMap Prod.fst
  let meths := if (lookupKey (st elemId).methods none).isSome
               then meths ++ defaultMethods else meths
  let meths := if "GET" ∈ meths then meths ++ ["HEAD"] else meths
  meths ++ ["OPTIONS"]

/-- The decision tail of `Controller._micropath_dispatch` once the
handler-invocation test has failed: delegate, or report not-found,
options, or not-implemented. -/
def dispatchTail (st : Store) (elemId : Nat) (pir : Bool)
    (uv : List (String × String)) (verb : String) (deleg : Option Nat) : Outcome :=
  match deleg with
  | some d => .delegated d uv
  | none =>
      if pir || (st elemId).methods.isEmpty then .notFound
      else if !(st elemId).methods.isEmpty && verb == "OPTIONS" then
        .options (sortStr (micropathMethods st elemId).dedup)
      else .notImplemented verb

/-- The decision logic of `Controller._micropath_dispatch`, taking the
result of `_micropath_resolve` (resolved element, whether path info
remains unconsumed, and the urlvars sink) as input.  `wantsPI f` models
`injector.wants(func, 'path_info')` for handler id `f`. -/
def dispatchDecision (fuel : Nat) (st : Store) (wantsPI : Nat → Bool)
    (elemId : Nat) (pir : Bool) (uv : List (String × String)) (verb : String) : Outcome :=
  match (micropathDelegation fuel st elemId verb).1 with
  | some f =>
      if !pir || wantsPI f then .handler f uv
      else dispatchTail st elemId pir uv verb (micropathDelegation fuel st elemId verb).2
  | none => dispatchTail st elemId pir uv verb (micropathDelegation fuel st elemId verb).2

/-- `Controller._micropath_resolve` composed with the element model of
elements.py.  A segment matching a key of `elem.paths` descends into
that path.  Otherwise the source evaluates `elem.bindings is not None`,
which is always true because `Element.__init__` sets `bindings` to a
`BindingMap`, and then calls `elem.bindings.validate(...)`: `BindingMap`
defines no `validate` attribute, so the interpreter raises
`AttributeError` at this point and the urlvars sink is never extended. -/
def resolveC (st : Store) : Nat → List String → List (String × String) →
    Except String (Nat × Bool × List (String × String))
  | elemId, [], uv => .ok (elemId, false, uv)
  | elemId, seg :: rest, uv =>
      match lookupKey (st elemId).paths (some seg) with
      | some child => resolveC st child rest uv
      | none => .error "AttributeError: BindingMap object has no attribute validate"

/-- `Controller._micropath_dispatch` end to end: resolve the path, then
decide.  An exception escaping resolution is converted by
`Controller.__call__` into a 500 response via `micropath_server_error`. -/
def dispatchC (fuel : Nat) (st : Store) (wantsPI : Nat → Bool)
    (rootId : Nat) (segs : List String) (verb : String) : Outcome :=
  match resolveC st rootId segs [] with
  | .error msg => .serverError msg
  | .ok (elemId, pir, uv) => dispatchDecision fuel st wantsPI elemId pir uv verb

/-- String-valued association-list lookup (Python dict access with
string keys and string values). -/
def strLookup : List (String × String) → String → Option String
  | [], _ => none
  | (k', v) :: rest, k => if k' = k then some v else strLookup rest k

/-- String-valued association-list assignment. -/
def strSet : List (String × String) → String → String → List (String × String)
  | [], k, v => [(k, v)]
  | (k', v') :: rest, k, v =>
      if k' = k then (k', v) :: rest else (k', v') :: strSet rest k v

/-- Nat-valued association-list lookup (for maps whose values are object
ids, such as the injector's deferred-producer table). -/
def natLookup : List (String × Nat) → String → Option Nat
  | [], _ => none
  | (k', v) :: rest, k => if k' = k then some v else natLookup rest k

/-- Nat-valued association-list assignment. -/
def natSet : List (String × Nat) → String → Nat → List (String × Nat)
  | [], k, v => [(k, v)]
  | (k', v') :: rest, k, v =>
      if k' = k then (k', v) :: rest else (k', v') :: natSet rest k v

/-- The state of `injector.Injector`: the `_available` value map, the
`_deferred` producer map (producers named by opaque ids) and the `_keys`
set. -/
structure Injector where
  available : List (String × String) := []
  deferred : List (String × Nat) := []
  keys : List String := []
deriving DecidableEq, Repr

/-- `Injector.__setitem__`: store the value and record the key in
`_keys`. -/
def Injector.setItem (inj : Injector) (k v : String) : Injector :=
  { inj with available := strSet inj.available k v,
             keys := if k ∈ inj.keys then inj.keys else inj.keys ++ [k] }

/-- `Injector.set_deferred`: record the producer in `_deferred` (the
source touches no other field). -/
def Injector.setDeferred (inj : Injector) (k : String) (pid : Nat) : Injector :=
  { inj with deferred := natSet inj.deferred k pid }

/-- `Injector.__getitem__` (fallible).  `env pid inj` models invoking
deferred producer `pid` through the injector's dependency-injection
call on the current state; the boolean in the result reports whether a
producer was invoked by this retrieval. -/
def Injector.getItem (env : Nat → Injector → String) (inj : Injector) (k : String) :
    Except String (String × Injector × Bool) :=
  if k ∈ inj.keys then
    match strLookup inj.available k with
    | some v => .ok (v, inj, false)
    | none =>
        match natLookup inj.deferred k with
        | some pid =>
            let v := env pid inj
            .ok (v, { inj with available := strSet inj.available k v }, true)
        | none => .error ("KeyError: " ++ k)
  else .error ("KeyError: " ++ k)

/-- `injector.WantSignature`: the declared positional order, the
required and optional keyword sets (sets of names: only membership is
meaningful), and the two catch-all flags. -/
structure WantSignature where
  argOrder : List String
  required : List String
  optional : List String
  allPos : Bool
  allKw : Bool
deriving DecidableEq, Repr

/-- The desired keyword set of `WantSignature.__call__`:
`(required | optional)`, extended with every key of `additional` and
`kwargs` when the callable accepts catch-all keywords, minus the names
already satisfied positionally (`arg_order[:len(args)]`). -/
def desiredNames (sig : WantSignature) (numArgs : Nat)
    (kwargs addl : List (String × String)) : List String :=
  let base := (sig.required ++ sig.optional).dedup
  let base := if sig.allKw
              then (base ++ addl.map Prod.fst ++ kwargs.map Prod.fst).dedup
              else base
  base.filter (fun k => ¬ k ∈ sig.argOrder.take numArgs)

/-- The keyword map built by `WantSignature.__call__`: each desired name
is looked up in `additional` first, then in `kwargs`, and skipped when
present in neither. -/
def realKw (sig : WantSignature) (numArgs : Nat)
    (kwargs addl : List (String × String)) : List (String × String) :=
  (desiredNames sig numArgs kwargs addl).filterMap
    (fun k => ((strLookup addl k).orElse (fun _ => strLookup kwargs k)).map
      (fun v => (k, v)))

/-- `WantSignature.__call__` up to the actual function application: the
positional-arity check, the keyword-map construction and the
missing-required check; on success the positional count and the keyword
map that the callable receives. -/
def sigCall (sig : WantSignature) (numArgs : Nat)
    (kwargs addl : List (String × String)) :
    Except String (Nat × List (String × String)) :=
  if !sig.allPos && decide (sig.argOrder.length < numArgs) then
    .error "too many positional arguments"
  else
    let rk := realKw sig numArgs kwargs addl
    if sig.required.any
        (fun r => !(rk.map Prod.fst).contains r &&
                  !(sig.argOrder.take numArgs).contains r) then
      .error "missing required keyword arguments"
    else .ok (numArgs, rk)

/-- `keyword in WantSignature` (`__contains__`): catch-all keywords or
membership of `required | optional`. -/
def sigContains (sig : WantSignature) (keyword : String) : Bool :=
  sig.allKw || (sig.required ++ sig.optional).contains keyword

/-- The raw introspection result of `WantSignature._getsig` for one
callable. -/
structure RawSig where
  order : List String
  required : List String
  optional : List String
  allPos : Bool
  allKw : Bool
deriving DecidableEq, Repr

/-- The `_micropath_signature` cache: callables are named by opaque ids
and the attribute set on the function object is a partial map. -/
def FuncState : Type := Nat → Option WantSignature

/-- Set-union of name lists (Python set union; only membership is
meaningful). -/
def nameUnion (a b : List String) : List String :=
  a ++ b.filter (fun x => ¬ x ∈ a)

/-- Set-difference of name lists. -/
def nameDiff (a b : List String) : List String :=
  a.filter (fun x => ¬ x ∈ b)

/-- `WantSignature.from_func` with default arguments (the call made for
the wrapped callable): return the cached signature, or introspect and
cache. -/
def fromFunc1 (getsig : Nat → RawSig) (fs : FuncState) (fid : Nat) :
    WantSignature × FuncState :=
  match fs fid with
  | some s => (s, fs)
  | none =>
      let r := getsig fid
      let s : WantSignature := ⟨r.order, r.required, r.optional, r.allPos, r.allKw⟩
      (s, fun j => if j = fid then some s else fs j)

/-- `WantSignature.from_func` in full: the cache check guards all of the
wrapper merging, the provided-name subtraction, and the
required/optional overrides for catch-all-keyword callables; the
constructed signature is rejected when the required and optional sets
overlap (`WantSignature.__init__`). -/
def fromFunc (getsig : Nat → RawSig) (fs : FuncState) (fid : Nat)
    (wrapped : Option Nat) (provides : List String)
    (required optional : Option (List String)) :
    Except String (WantSignature × FuncState) :=
  match fs fid with
  | some s => .ok (s, fs)
  | none =>
      let r := getsig fid
      let merged :=
        match wrapped with
        | some w =>
            match fromFunc1 getsig fs w with
            | (ws, fs') =>
                let fOpt := nameUnion (nameDiff r.optional ws.required)
                                      (nameDiff ws.optional r.required)
                let fReq := nameUnion r.required ws.required
                (fs', nameDiff fReq provides, nameDiff fOpt provides)
        | none => (fs, r.required, r.optional)
      match merged with
      | (fs1, req1, opt1) =>
          let req2 := if r.allKw then
                        match required with
                        | some rq => nameUnion req1 rq
                        | none => req1
                      else req1
          let opt2 := if r.allKw then
                        match optional with
                        | some op => nameUnion opt1 op
                        | none => opt1
                      else opt1
          let allKw2 := r.allKw && required.isNone && optional.isNone
          if req2.any (fun x => x ∈ opt2) then
            .error "overlap between required and optional"
          else
            let s : WantSignature := ⟨r.order, req2, opt2, r.allPos, allKw2⟩
            .ok (s, fun j => if j = fid then some s else fs1 j)

/-- The three subordinate-map selectors. -/
def allSels : List MapSel := [.paths, .bindings, .methods]

/-- Union of two ident-keyed maps, the second inserted entry by entry
into the first (the re-insertion loop of `Element.merge` when no key
collides). -/
def unionMap (m1 m2 : List (Option String × Nat)) : List (Option String × Nat) :=
  m2.foldl (fun m p => setKey m p.1 p.2) m1

/-- The store produced by one no-collision insertion pass of
`Element.merge`: the surviving element's map is extended and every
inserted child is re-parented to the surviving element. -/
def insertFormula (sel : MapSel) (children : List (Option String × Nat))
    (st : Store) (selfId : Nat) : Store :=
  fun j =>
    if j = selfId then
      (st selfId).setMap sel
        (children.foldl (fun m p => setKey m p.1 p.2) ((st selfId).getMap sel))
    else if j ∈ children.map Prod.snd then { st j with parent := some selfId }
    else st j

/-- The expected result of merging two master-free elements with equal
parents and structurally disjoint subtrees: the surviving element holds
the union of the child maps (and absorbs the other's delegation), the
absorbed element aliases the surviving element's maps and records it as
master, every absorbed child is re-parented, and all other elements are
untouched. -/
def mergedStore (st : Store) (selfId otherId : Nat) : Store :=
  fun j =>
    if j = selfId then
      let base := (((st selfId).setMap .paths
          (unionMap (st selfId).paths (st otherId).paths)).setMap .bindings
          (unionMap (st selfId).bindings (st otherId).bindings)).setMap .methods
          (unionMap (st selfId).methods (st otherId).methods)
      match (st otherId).delegation with
      | some d => { base with delegation := some d }
      | none => base
    else if j = otherId then
      { st otherId with
          paths := unionMap (st selfId).paths (st otherId).paths,
          bindings := unionMap (st selfId).bindings (st otherId).bindings,
          methods := unionMap (st selfId).methods (st otherId).methods,
          delegation := none,
          master := some selfId }
    else if j ∈ (st otherId).paths.map Prod.snd ∨ j ∈ (st otherId).bindings.map Prod.snd ∨
            j ∈ (st otherId).methods.map Prod.snd then
      { st j with parent := some selfId }
    else st j

/-- Fixture for the dispatch claim: the routing tree
Root → Binding(sub_id) → Path(books) → Binding(book_id) → Method(GET),
with the GET handler named 100. -/
def stC1 : Store := fun i =>
  match i with
  | 0 => { kind := .root, bindings := [(some "sub_id", 1)] }
  | 1 => { kind := .binding, ident := some "sub_id", parent := some 0,
           paths := [(some "books", 2)] }
  | 2 => { kind := .path, ident := some "books", parent := some 1,
           bindings := [(some "book_id", 3)] }
  | 3 => { kind := .binding, ident := some "book_id", parent := some 2,
           methods := [(some "GET", 4)] }
  | 4 => { kind := .method, ident := some "GET", parent := some 3, func := some 100 }
  | _ => { kind := .path }

/-- A `wants(func, 'path_info')` oracle that always answers no. -/
def wPIfalse : Nat → Bool := fun _ => false

/-- Fixture for the skip-signal claim: a root carrying two bindings
`a` and `b`; the validator of `a` is the one that would raise
`SkipBinding` for the probed segment. -/
def stC3 : Store := fun i =>
  match i with
  | 0 => { kind := .root, bindings := [(some "a", 1), (some "b", 2)] }
  | 1 => { kind := .binding, ident := some "a", parent := some 0,
           methods := [(some "GET", 3)] }
  | 2 => { kind := .binding, ident := some "b", parent := some 0,
           methods := [(some "GET", 4)] }
  | 3 => { kind := .method, ident := some "GET", parent := some 1, func := some 31 }
  | 4 => { kind := .method, ident := some "GET", parent := some 2, func := some 32 }
  | _ => { kind := .path }

/-- Fixture for the merge error claim: element 0 is a `Path` and
element 1 a `Binding`, both with ident x. -/
def stC5 : Store := fun i =>
  match i with
  | 0 => { kind := .path, ident := some "x" }
  | 1 => { kind := .binding, ident := some "x" }
  | _ => { kind := .path }

/-- Fixture for the disjoint-merge claim: elements 0 and 1 are both
`Path` elements with ident x and no parents; their child maps are
disjoint (paths p1 versus p2, no binding versus binding b1, method GET
versus method PUT). -/
def stC6 : Store := fun i =>
  match i with
  | 0 => { kind := .path, ident := some "x", paths := [(some "p1", 2)],
           methods := [(some "GET", 5)] }
  | 1 => { kind := .path, ident := some "x", paths := [(some "p2", 3)],
           bindings := [(some "b1", 4)], methods := [(some "PUT", 6)] }
  | 2 => { kind := .path, ident := some "p1", parent := some 0 }
  | 3 => { kind := .path, ident := some "p2", parent := some 1 }
  | 4 => { kind := .binding, ident := some "b1", parent := some 1 }
  | 5 => { kind := .method, ident := some "GET", parent := some 0, func := some 60 }
  | 6 => { kind := .method, ident := some "PUT", parent := some 1, func := some 61 }
  | _ => { kind := .path }

/-- Fixture for the dispatch-decision claim: a node whose methods map
holds only GET. -/
def stC8 : Store := fun i =>
  match i with
  | 0 => { kind := .path, ident := some "x", methods := [(some "GET", 1)] }
  | 1 => { kind := .method, ident := some "GET", parent := some 0, func := some 70 }
  | _ => { kind := .path }

/-- Fixture for the OPTIONS claim: a node whose methods map is
exactly GET to one handler. -/
def stC9 : Store := fun i =>
  match i with
  | 0 => { kind := .path, ident := some "y", methods := [(some "GET", 1)] }
  | 1 => { kind := .method, ident := some "GET", parent := some 0, func := some 80 }
  | _ => { kind := .path }

/-- A producer environment for the injector fixture. -/
def envW : Nat → Injector → String := fun _ _ => "value"

/-- The empty injector. -/
def injEmpty : Injector := { available := [], deferred := [], keys := [] }

/-- The signature of the handler `f(self, sub_id=None)`. -/
def sigC7 : WantSignature :=
  { argOrder := ["self", "sub_id"], required := ["self"], optional := ["sub_id"],
    allPos := false, allKw := false }

/-- An introspection table for the caching claim: every callable is
reported with one positional argument a and a catch-all keyword slot. -/
def getsigW : Nat → RawSig :=
  fun _ => { order := ["a"], required := ["a"], optional := [], allPos := false,
             allKw := true }

/-- The empty signature cache. -/
def fsEmpty : FuncState := fun _ => none

/-- The signature computed for callable 0 on the first `from_func` call
with the required-override x. -/
def sigW : WantSignature :=
  { argOrder := ["a"], required := ["a", "x"], optional := [], allPos := false,
    allKw := false }

/-- The signature cache after that first call. -/
def fsW1 : FuncState := fun j => if j = 0 then some sigW else none

theorem getMap_setMap (e : Elem) (sel sel' : MapSel) (m : List (Option String × Nat)) :
    (e.setMap sel m).getMap sel' = if sel' = sel then m else e.getMap sel' := by
  cases sel <;> cases sel' <;> simp [Elem.setMap, Elem.getMap]

theorem setMap_getMap_self (e : Elem) (sel : MapSel) : e.setMap sel (e.getMap sel) = e := by
  cases sel <;> rfl

theorem setMap_setMap (e : Elem) (sel : MapSel) (a b : List (Option String × Nat)) :
    (e.setMap sel a).setMap sel b = e.setMap sel b := by
  cases sel <;> rfl

theorem parent_setMap (e : Elem) (sel : MapSel) (m : List (Option String × Nat)) :
    (e.setMap sel m).parent = e.parent := by
  cases sel <;> rfl

theorem master_setMap (e : Elem) (sel : MapSel) (m : List (Option String × Nat)) :
    (e.setMap sel m).master = e.master := by
  cases sel <;> rfl

theorem delegation_setMap (e : Elem) (sel : MapSel) (m : List (Option String × Nat)) :
    (e.setMap sel m).delegation = e.delegation := by
  cases sel <;> rfl

theorem lookupKey_setKey (m : List (Option String × Nat)) (k : Option String) (v : Nat)
    (k' : Option String) :
    lookupKey (setKey m k v) k' = if k = k' then some v else lookupKey m k' := by
  induction m with
  | nil => simp [setKey, lookupKey]
  | cons p rest ih =>
    obtain ⟨pk, pv⟩ := p
    by_cases h : pk = k
    · subst h
      by_cases h' : pk = k' <;> simp [setKey, lookupKey, h']
    · by_cases h' : pk = k'
      · subst h'
        have hkk : ¬ k = pk := fun hh => h hh.symm
        simp [setKey, lookupKey, h, hkk]
      · simp [setKey, lookupKey, h, h', ih]

theorem lookupKey_unionMap (l : List (Option String × Nat)) :
    ∀ (m0 : List (Option String × Nat)),
    (∀ p ∈ l, lookupKey m0 p.1 = none) → ((l.map Prod.fst).Nodup) →
    ∀ k, lookupKey (unionMap m0 l) k =
      (lookupKey m0 k).orElse (fun _ => lookupKey l k) := by
  induction l with
  | nil =>
    intro m0 _ _ k
    cases h : lookupKey m0 k <;> simp [unionMap, lookupKey, h, Option.orElse]
  | cons p rest ih =>
    intro m0 hd hn k
    obtain ⟨pk, pv⟩ := p
    have hstep : unionMap m0 ((pk, pv) :: rest) = unionMap (setKey m0 pk pv) rest := rfl
    rw [hstep]
    have hd' : ∀ q ∈ rest, lookupKey (setKey m0 pk pv) q.1 = none := by
      intro q hq
      rw [lookupKey_setKey]
      have hqk : ¬ pk = q.1 := by
        intro he
        have : q.1 ∈ rest.map Prod.fst := List.mem_map_of_mem Prod.fst hq
        rw [← he] at this
        exact (List.nodup_cons.mp (by simpa using hn)).1 this
      simp [hqk]
      exact hd q (List.mem_cons_of_mem _ hq)
    have hn' : (rest.map Prod.fst).Nodup := (List.nodup_cons.mp (by simpa using hn)).2
    rw [ih (setKey m0 pk pv) hd' hn' k]
    rw [lookupKey_setKey]
    by_cases hk : pk = k
    · subst hk
      have h0 : lookupKey m0 pk = none := hd (pk, pv) (List.mem_cons_self _ _)
      simp [h0, lookupKey, Option.orElse]
    · have hlc : lookupKey ((pk, pv) :: rest) k = lookupKey rest k := by
        simp [lookupKey, hk]
      simp [hk, hlc]

theorem walkMasters_none (f : Nat) (st : Store) (selfId otherId : Nat)
    (h : (st otherId).master = none) :
    walkMasters f st selfId otherId = (st, otherId) := by
  cases f <;> simp [walkMasters, h]

theorem delegationOf_noMaster (f : Nat) (st : Store) (i : Nat)
    (h : (st i).master = none) :
    delegationOf (f + 1) st i = (st i).delegation := by
  simp [delegationOf, h]

theorem insertChildrenG_disjoint (mf : Store → Nat → Nat → Except (String × Store) Store)
    (sel : MapSel) (children : List (Option String × Nat)) :
    ∀ (st : Store) (selfId : Nat),
    (∀ p ∈ children, lookupKey ((st selfId).getMap sel) p.1 = none) →
    ((children.map Prod.fst).Nodup) →
    (∀ p ∈ children, p.2 ≠ selfId) →
    insertChildrenG mf st selfId sel children =
      .ok (insertFormula sel children st selfId) := by
  induction children with
  | nil =>
    intro st selfId _ _ _
    simp only [insertChildrenG]
    congr 1
    funext j
    by_cases hj : j = selfId
    · subst hj
      simp [insertFormula, setMap_getMap_self]
    · simp [insertFormula, hj]
  | cons p rest ih =>
    intro st selfId hd hn hc
    obtain ⟨k, cid⟩ := p
    have hcid : cid ≠ selfId := hc (k, cid) (List.mem_cons_self _ _)
    have hk0 : lookupKey ((st selfId).getMap sel) k = none :=
      hd (k, cid) (List.mem_cons_self _ _)
    simp only [insertChildrenG, hk0]
    have hself : ¬ selfId = cid := fun hh => hcid hh.symm
    have hst1 : ∀ j, (updateElem
        (updateElem st selfId (fun e => e.setMap sel (setKey (e.getMap sel) k cid)))
        cid (fun e => { e with parent := some selfId })) j =
        if j = cid then { st j with parent := some selfId }
        else if j = selfId then (st selfId).setMap sel (setKey ((st selfId).getMap sel) k cid)
        else st j := by
      intro j
      by_cases hjc : j = cid
      · subst hjc
        simp [updateElem, hcid]
      · by_cases hjs : j = selfId
        · subst hjs
          simp [updateElem, hjc]
        · simp [updateElem, hjc, hjs]
    set st1 := updateElem
        (updateElem st selfId (fun e => e.setMap sel (setKey (e.getMap sel) k cid)))
        cid (fun e => { e with parent := some selfId }) with hst1def
    have hs1 : st1 selfId = (st selfId).setMap sel (setKey ((st selfId).getMap sel) k cid) := by
      rw [hst1 selfId]
      simp [hself]
    have hn' : (rest.map Prod.fst).Nodup := (List.nodup_cons.mp (by simpa using hn)).2
    have hknotin : ¬ k ∈ rest.map Prod.fst := (List.nodup_cons.mp (by simpa using hn)).1
    have hd' : ∀ q ∈ rest, lookupKey ((st1 selfId).getMap sel) q.1 = none := by
      intro q hq
      rw [hs1, getMap_setMap, if_pos rfl, lookupKey_setKey]
      have hkq : ¬ k = q.1 := by
        intro he
        exact hknotin (he ▸ List.mem_map_of_mem Prod.fst hq)
      simp [hkq]
      exact hd q (List.mem_cons_of_mem _ hq)
    have hc' : ∀ q ∈ rest, q.2 ≠ selfId := fun q hq => hc q (List.mem_cons_of_mem _ hq)
    rw [ih st1 selfId hd' hn' hc']
    congr 1
    funext j
    by_cases hj : j = selfId
    · subst hj
      simp [insertFormula, hs1, getMap_setMap, setMap_setMap, List.foldl_cons]
    · have hj2 : ((k, cid) :: rest).map Prod.snd = cid :: rest.map Prod.snd := rfl
      by_cases hjc : j = cid
      · subst hjc
        by_cases hjr : j ∈ rest.map Prod.snd
        · simp [insertFormula, hj, hjr, hst1, hj2]
        · simp [insertFormula, hj, hjr, hst1, hj2]
      · by_cases hjr : j ∈ rest.map Prod.snd
        · simp [insertFormula, hj, hjr, hjc, hst1, hj2]
        · simp [insertFormula, hj, hjr, hjc, hst1, hj2]

theorem getMap_withDelegation (e : Elem) (d : Option Nat) (sel : MapSel) :
    (Elem.getMap { e with delegation := d } sel) = e.getMap sel := by
  cases sel <;> rfl

/-- C1: dispatching the path 1234/books/5678 with verb GET against the
tree Root → Binding(sub_id) → Path(books) → Binding(book_id) →
Method(GET) does not return the GET handler result: at the first
non-static segment `_micropath_resolve` evaluates
`elem.bindings.validate(...)` on the `BindingMap` that
`Element.__init__` installed, which has no `validate` attribute, so the
dispatch raises `AttributeError` and `Controller.__call__` converts it
into a 500 server error; the urlvars sink stays empty.  This evaluates
the code at the failing input of the claim (the repository's own
functional test for this exact tree expects the handler result with
sink sub_id 1234, book_id 5678). -/
theorem dispatch_books_attribute_error :
    dispatchC 9 stC1 wPIfalse 0 ["1234", "books", "5678"] "GET" =
      .serverError "AttributeError: BindingMap object has no attribute validate" := by
  rfl

/-- C2: the Binding Order Resolver ignores `after` sets.  For bindings
a (with after set containing b) and b, the constraint derived by the
specification is that b must be tried before a; the code instead adds
the self edge `adjacency[other].add(other)` while building the graph, so
the `after` set has no effect and the produced order is a, b, violating
the constraint.  This evaluates `BindingMap.__iter__` at the failing
input. -/
theorem bindingOrder_ignores_after :
    bindingOrder 99 [{ ident := "a", before := [], after := ["b"] },
                     { ident := "b" }] = ["a", "b"] := by
  decide

/-- C3: the skip protocol is never exercised by the dispatcher.  At a
node carrying two bindings a and b (where the validator of a is the one
that would raise `SkipBinding`), dispatching a segment that matches no
static path raises `AttributeError` before any validator can run,
because `_micropath_resolve` treats `elem.bindings` as a single binding
(`elem.bindings.validate`) while elements.py supplies a `BindingMap`;
hence no next binding is ever tried after a skip.  This evaluates the
code at the failing input. -/
theorem dispatch_skip_attribute_error :
    dispatchC 9 stC3 wPIfalse 0 ["seg"] "GET" =
      .serverError "AttributeError: BindingMap object has no attribute validate" := by
  rfl

/-- C4: a key supplied to the injector only through `set_deferred` is
not retrievable: `set_deferred` records the producer in `_deferred` (the
lookup on the left conjunct) but never adds the key to `_keys`, and
`__getitem__` raises `KeyError` for any key outside `_keys` before
consulting `_deferred`, so the producer is never invoked.  This
evaluates the code at the failing input. -/
theorem deferred_only_key_errors :
    natLookup (Injector.setDeferred injEmpty "a" 7).deferred "a" = some 7 ∧
    Injector.getItem envW (Injector.setDeferred injEmpty "a" 7) "a" =
      .error "KeyError: a" := by
  exact ⟨rfl, rfl⟩

/-- C5: merging two master-free elements errors out, leaving the store
untouched, whenever their concrete classes differ, their idents differ,
or both carry delegations that are not the same delegation; all three
checks in `Element.merge` precede every mutation. -/
theorem merge_mismatch_error (fuel : Nat) (st : Store) (selfId otherId : Nat)
    (hms : (st selfId).master = none)
    (hmo : (st otherId).master = none)
    (h : (st selfId).kind ≠ (st otherId).kind ∨ (st selfId).ident ≠ (st otherId).ident ∨
        (∃ d1 d2, (st selfId).delegation = some d1 ∧ (st otherId).delegation = some d2 ∧
          d1 ≠ d2)) :
    ∃ msg, mergeFuel (fuel + 1) st selfId otherId = .error (msg, st) := by
  have hdlg := delegationOf_noMaster fuel st otherId hmo
  have h1 : mergeFuel (fuel + 1) st selfId otherId =
      mergeStep (mergeFuel fuel) (walkMasters fuel) (delegationOf (fuel + 1))
        st selfId otherId := by
    simp [mergeFuel, hms]
  rw [h1]
  simp only [mergeStep, hdlg]
  by_cases hk : (st selfId).kind = (st otherId).kind
  · by_cases hi : (st selfId).ident = (st otherId).ident
    · rcases h with h' | h' | h'
      · exact absurd hk h'
      · exact absurd hi h'
      · obtain ⟨d1, d2, hd1, hd2, hdne⟩ := h'
        refine ⟨"cannot merge due to conflicting delegations", ?_⟩
        rw [if_neg (not_not_intro hk), if_neg (not_not_intro hi), if_pos ?_]
        refine ⟨by rw [hd1]; rfl, by rw [hd2]; rfl, ?_⟩
        rw [hd1, hd2]
        exact fun hc => hdne (Option.some.inj hc)
    · refine ⟨"cannot merge with unequal idents", ?_⟩
      rw [if_neg (not_not_intro hk), if_pos hi]
  · exact ⟨"cannot merge different element classes", by rw [if_pos hk]⟩

/-- Witness for the merge-mismatch theorem at a concrete input: a Path
and a Binding with equal idents refuse to merge and the store is
unchanged. -/
theorem merge_mismatch_error_witness :
    (stC5 0).master = none ∧ (stC5 1).master = none ∧
    (stC5 0).kind ≠ (stC5 1).kind ∧
    ∃ msg, mergeFuel (4 + 1) stC5 0 1 = .error (msg, stC5) :=
  ⟨rfl, rfl, by decide,
    merge_mismatch_error 4 stC5 0 1 rfl rfl (Or.inl (by decide))⟩

theorem mergeFinish_apply (st4 : Store) (selfId oF : Nat) (hne' : ¬ oF = selfId)
    (hm : (st4 selfId).master = none) :
    mergeFinish st4 selfId oF = fun j =>
      if j = oF then
        { st4 oF with paths := (st4 selfId).paths, bindings := (st4 selfId).bindings,
                      methods := (st4 selfId).methods, delegation := none,
                      master := some selfId }
      else if j = selfId then
        (match (st4 oF).delegation with
          | some d => { st4 selfId with delegation := some d }
          | none => st4 selfId)
      else st4 j := by
  funext j
  have hsns : ¬ selfId = oF := fun hh => hne' hh.symm
  cases hd : (st4 oF).delegation with
  | none =>
      by_cases hjo : j = oF
      · subst hjo
        simp [mergeFinish, updateElem, hd, hne', hsns, hm]
      · by_cases hjs : j = selfId
        · subst hjs
          simp [mergeFinish, updateElem, hd, hne', hjo, hsns, hm]
        · simp [mergeFinish, updateElem, hd, hne', hjo, hjs, hsns, hm]
  | some d =>
      by_cases hjo : j = oF
      · subst hjo
        simp [mergeFinish, updateElem, hd, hne', hsns, hm]
      · by_cases hjs : j = selfId
        · subst hjs
          simp [mergeFinish, updateElem, hd, hne', hjo, hsns, hm]
        · simp [mergeFinish, updateElem, hd, hne', hjo, hjs, hsns, hm]

theorem merge_disjoint_ok (fuel : Nat) (st : Store) (selfId otherId : Nat)
    (hne : selfId ≠ otherId)
    (hms : (st selfId).master = none)
    (hmo : (st otherId).master = none)
    (hkind : (st selfId).kind = (st otherId).kind)
    (hident : (st selfId).ident = (st otherId).ident)
    (hpar : (st selfId).parent = (st otherId).parent)
    (hdel : (st selfId).delegation = none ∨ (st otherId).delegation = none ∨
            (st selfId).delegation = (st otherId).delegation)
    (hdisj : ∀ sel ∈ allSels, ∀ p ∈ (st otherId).getMap sel,
        lookupKey ((st selfId).getMap sel) p.1 = none)
    (hnd : ∀ sel ∈ allSels, (((st otherId).getMap sel).map Prod.fst).Nodup)
    (hcid : ∀ sel ∈ allSels, ∀ p ∈ (st otherId).getMap sel,
        p.2 ≠ selfId ∧ p.2 ≠ otherId) :
    mergeFuel (fuel + 1) st selfId otherId = .ok (mergedStore st selfId otherId) := by
  have hpmem : MapSel.paths ∈ allSels := by simp [allSels]
  have hbmem : MapSel.bindings ∈ allSels := by simp [allSels]
  have hmmem : MapSel.methods ∈ allSels := by simp [allSels]
  have hone : ¬ otherId = selfId := fun hh => hne hh.symm
  have h1 : mergeFuel (fuel + 1) st selfId otherId =
      mergeStep (mergeFuel fuel) (walkMasters fuel) (delegationOf (fuel + 1))
        st selfId otherId := by
    simp [mergeFuel, hms]
  rw [h1]
  have hdlg := delegationOf_noMaster fuel st otherId hmo
  have hcond3 : ¬ ((st selfId).delegation.isSome ∧
      (delegationOf (fuel + 1) st otherId).isSome ∧
      (st selfId).delegation ≠ delegationOf (fuel + 1) st otherId) := by
    rw [hdlg]
    rcases hdel with h | h | h <;> simp [h]
  have h2 : mergeStep (mergeFuel fuel) (walkMasters fuel) (delegationOf (fuel + 1))
      st selfId otherId =
      mergeMainG (mergeFuel fuel) (walkMasters fuel) st selfId otherId := by
    simp only [mergeStep]
    rw [if_neg (not_not_intro hkind), if_neg (not_not_intro hident), if_neg hcond3]
    cases hp : (st selfId).parent with
    | none =>
        have hp2 : (st otherId).parent = none := by rw [← hpar, hp]
        rw [hp2]
    | some sp =>
        have hp2 : (st otherId).parent = some sp := by rw [← hpar, hp]
        rw [hp2]
        simp
  rw [h2]
  have hwm := walkMasters_none fuel st selfId otherId hmo
  simp only [mergeMainG, hwm]
  have hins1 := insertChildrenG_disjoint (mergeFuel fuel) .paths ((st otherId).paths)
    st selfId (hdisj .paths hpmem) (hnd .paths hpmem)
    (fun p hp => (hcid .paths hpmem p hp).1)
  simp only [hins1]
  set S1 := insertFormula .paths ((st otherId).paths) st selfId with hS1def
  have hnotin : ∀ sel ∈ allSels, ¬ otherId ∈ ((st otherId).getMap sel).map Prod.snd := by
    intro sel hsel
    simp only [List.mem_map]
    rintro ⟨p, hp, hpe⟩
    exact (hcid sel hsel p hp).2 hpe
  have hnotinP : ¬ otherId ∈ ((st otherId).paths).map Prod.snd := by
    simpa [Elem.getMap] using hnotin .paths hpmem
  have hnotinB : ¬ otherId ∈ ((st otherId).bindings).map Prod.snd := by
    simpa [Elem.getMap] using hnotin .bindings hbmem
  have hnotinM : ¬ otherId ∈ ((st otherId).methods).map Prod.snd := by
    simpa [Elem.getMap] using hnotin .methods hmmem
  have hS1o : S1 otherId = st otherId := by
    rw [hS1def]
    simp only [insertFormula]
    rw [if_neg hone, if_neg hnotinP]
  have hS1s : S1 selfId =
      (st selfId).setMap .paths (unionMap (st selfId).paths (st otherId).paths) := by
    rw [hS1def]
    simp [insertFormula, unionMap, Elem.getMap]
  rw [hS1o]
  have hd2 : ∀ p ∈ (st otherId).bindings,
      lookupKey ((S1 selfId).getMap .bindings) p.1 = none := by
    intro p hp
    rw [hS1s, getMap_setMap]
    simp only [show (MapSel.bindings = MapSel.paths) = False by simp, if_false]
    exact hdisj .bindings hbmem p hp
  have hins2 := insertChildrenG_disjoint (mergeFuel fuel) .bindings ((st otherId).bindings)
    S1 selfId hd2 (hnd .bindings hbmem)
    (fun p hp => (hcid .bindings hbmem p hp).1)
  simp only [hins2]
  set S2 := insertFormula .bindings ((st otherId).bindings) S1 selfId with hS2def
  have hS2o : S2 otherId = st otherId := by
    rw [hS2def]
    simp only [insertFormula]
    rw [if_neg hone, if_neg hnotinB, hS1o]
  have hS2s : S2 selfId =
      ((st selfId).setMap .paths (unionMap (st selfId).paths (st otherId).paths)).setMap
        .bindings (unionMap (st selfId).bindings (st otherId).bindings) := by
    rw [hS2def]
    simp only [insertFormula, if_pos rfl]
    rw [hS1s]
    simp [unionMap, Elem.getMap, Elem.setMap, getMap_setMap]
  rw [hS2o]
  have hd3 : ∀ p ∈ (st otherId).methods,
      lookupKey ((S2 selfId).getMap .methods) p.1 = none := by
    intro p hp
    rw [hS2s, getMap_setMap, getMap_setMap]
    simp only [show (MapSel.methods = MapSel.bindings) = False by simp,
      show (MapSel.methods = MapSel.paths) = False by simp, if_false]
    exact hdisj .methods hmmem p hp
  have hins3 := insertChildrenG_disjoint (mergeFuel fuel) .methods ((st otherId).methods)
    S2 selfId hd3 (hnd .methods hmmem)
    (fun p hp => (hcid .methods hmmem p hp).1)
  simp only [hins3]
  set S3 := insertFormula .methods ((st otherId).methods) S2 selfId with hS3def
  have hS3o : S3 otherId = st otherId := by
    rw [hS3def]
    simp only [insertFormula]
    rw [if_neg hone, if_neg hnotinM, hS2o]
  have hS3s : S3 selfId =
      (((st selfId).setMap .paths (unionMap (st selfId).paths (st otherId).paths)).setMap
        .bindings (unionMap (st selfId).bindings (st otherId).bindings)).setMap
        .methods (unionMap (st selfId).methods (st otherId).methods) := by
    rw [hS3def]
    simp only [insertFormula, if_pos rfl]
    rw [hS2s]
    simp [unionMap, Elem.getMap, Elem.setMap, getMap_setMap]
  have hS3m : (S3 selfId).master = none := by
    rw [hS3s, master_setMap, master_setMap, master_setMap, hms]
  rw [mergeFinish_apply S3 selfId otherId hone hS3m]
  congr 1
  funext j
  by_cases hjo : j = otherId
  · rw [if_pos hjo, hjo]
    have hms3 : mergedStore st selfId otherId otherId =
        { st otherId with
            paths := unionMap (st selfId).paths (st otherId).paths,
            bindings := unionMap (st selfId).bindings (st otherId).bindings,
            methods := unionMap (st selfId).methods (st otherId).methods,
            delegation := none, master := some selfId } := by
      simp [mergedStore, hone]
    rw [hms3, hS3o, hS3s]
    simp [Elem.setMap]
  · by_cases hjs : j = selfId
    · rw [if_neg hjo, if_pos hjs, hjs, hS3o]
      cases hod : (st otherId).delegation with
      | none =>
          simp only [mergedStore, if_pos rfl, hod]
          rw [hS3s]
          simp
      | some d =>
          simp only [mergedStore, if_pos rfl, hod]
          rw [hS3s]
          simp
    · rw [if_neg hjo, if_neg hjs]
      have hS3j : S3 j =
          if j ∈ ((st otherId).paths).map Prod.snd ∨
             j ∈ ((st otherId).bindings).map Prod.snd ∨
             j ∈ ((st otherId).methods).map Prod.snd then
            { st j with parent := some selfId }
          else st j := by
        rw [hS3def, hS2def, hS1def]
        by_cases h1' : j ∈ ((st otherId).methods).map Prod.snd <;>
        by_cases h2' : j ∈ ((st otherId).bindings).map Prod.snd <;>
        by_cases h3' : j ∈ ((st otherId).paths).map Prod.snd <;>
        simp [insertFormula, hjs, h1', h2', h3', Elem.getMap]
      rw [hS3j]
      simp only [mergedStore, if_neg hjs, if_neg hjo]

/-- C6: merging two same-kind, equal-ident, master-free elements with
matching parents, compatible delegations and structurally disjoint
subtrees succeeds, and in the resulting store the surviving element's
paths, bindings and methods maps each equal the union of the two
operands' corresponding maps, the absorbed element's three child maps
equal the surviving element's maps (the source makes them references to
the same objects), every absorbed child's parent pointer equals the
surviving element, and the absorbed element records the surviving
element as its master. -/
theorem merge_disjoint_union (fuel : Nat) (st : Store) (selfId otherId : Nat)
    (hne : selfId ≠ otherId)
    (hms : (st selfId).master = none)
    (hmo : (st otherId).master = none)
    (hkind : (st selfId).kind = (st otherId).kind)
    (hident : (st selfId).ident = (st otherId).ident)
    (hpar : (st selfId).parent = (st otherId).parent)
    (hdel : (st selfId).delegation = none ∨ (st otherId).delegation = none ∨
            (st selfId).delegation = (st otherId).delegation)
    (hdisj : ∀ sel ∈ allSels, ∀ p ∈ (st otherId).getMap sel,
        lookupKey ((st selfId).getMap sel) p.1 = none)
    (hnd : ∀ sel ∈ allSels, (((st otherId).getMap sel).map Prod.fst).Nodup)
    (hcid : ∀ sel ∈ allSels, ∀ p ∈ (st otherId).getMap sel,
        p.2 ≠ selfId ∧ p.2 ≠ otherId) :
    mergeFuel (fuel + 1) st selfId otherId = .ok (mergedStore st selfId otherId) ∧
    (∀ sel ∈ allSels, ∀ k,
        lookupKey ((mergedStore st selfId otherId selfId).getMap sel) k =
          (lookupKey ((st selfId).getMap sel) k).orElse
            (fun _ => lookupKey ((st otherId).getMap sel) k)) ∧
    (∀ sel ∈ allSels,
        (mergedStore st selfId otherId otherId).getMap sel =
          (mergedStore st selfId otherId selfId).getMap sel) ∧
    (∀ sel ∈ allSels, ∀ p ∈ (st otherId).getMap sel,
        (mergedStore st selfId otherId p.2).parent = some selfId) ∧
    (mergedStore st selfId otherId otherId).master = some selfId := by
  have hone : ¬ otherId = selfId := fun hh => hne hh.symm
  have hMSs : ∀ sel, (mergedStore st selfId otherId selfId).getMap sel =
      unionMap ((st selfId).getMap sel) ((st otherId).getMap sel) := by
    intro sel
    cases hod : (st otherId).delegation with
    | none => cases sel <;> simp [mergedStore, hod, Elem.getMap, Elem.setMap]
    | some d => cases sel <;> simp [mergedStore, hod, Elem.getMap, Elem.setMap]
  have hMSo : ∀ sel, (mergedStore st selfId otherId otherId).getMap sel =
      unionMap ((st selfId).getMap sel) ((st otherId).getMap sel) := by
    intro sel
    cases sel <;> simp [mergedStore, hone, Elem.getMap]
  refine ⟨merge_disjoint_ok fuel st selfId otherId hne hms hmo hkind hident hpar hdel
      hdisj hnd hcid, ?_, ?_, ?_, ?_⟩
  · intro sel hsel k
    rw [hMSs sel]
    exact lookupKey_unionMap ((st otherId).getMap sel) ((st selfId).getMap sel)
      (hdisj sel hsel) (hnd sel hsel) k
  · intro sel _
    rw [hMSo sel, hMSs sel]
  · intro sel hsel p hp
    obtain ⟨hps, hpo⟩ := hcid sel hsel p hp
    have hmem : p.2 ∈ ((st otherId).paths).map Prod.snd ∨
        p.2 ∈ ((st otherId).bindings).map Prod.snd ∨
        p.2 ∈ ((st otherId).methods).map Prod.snd := by
      have hmm := List.mem_map_of_mem Prod.snd hp
      cases sel with
      | paths => exact Or.inl (by simpa [Elem.getMap] using hmm)
      | bindings => exact Or.inr (Or.inl (by simpa [Elem.getMap] using hmm))
      | methods => exact Or.inr (Or.inr (by simpa [Elem.getMap] using hmm))
    simp only [mergedStore, if_neg hps, if_neg hpo]
    rw [if_pos hmem]
  · simp [mergedStore, hone]

/-- Witness for the disjoint-merge theorem at a concrete pair of Path
elements with ident x and disjoint children. -/
theorem merge_disjoint_union_witness :
    mergeFuel (8 + 1) stC6 0 1 = .ok (mergedStore stC6 0 1) ∧
    (mergedStore stC6 0 1 1).master = some 0 := by
  have h := merge_disjoint_union 8 stC6 0 1 (by decide) rfl rfl rfl rfl rfl
    (Or.inl rfl) (by decide) (by decide) (by decide)
  exact ⟨h.1, h.2.2.2.2⟩

theorem strLookup_filterMap (names : List String) (f : String → Option String)
    (hnd : names.Nodup) (name : String) :
    strLookup (names.filterMap (fun k => (f k).map (fun v => (k, v)))) name =
      if name ∈ names then f name else none := by
  induction names with
  | nil => simp [strLookup]
  | cons k ks ih =>
    have hk : ¬ k ∈ ks := (List.nodup_cons.mp hnd).1
    have hnd' : ks.Nodup := (List.nodup_cons.mp hnd).2
    cases hf : f k with
    | none =>
      have hstep : (k :: ks).filterMap (fun q => (f q).map (fun v => (q, v))) =
          ks.filterMap (fun q => (f q).map (fun v => (q, v))) := by
        simp [List.filterMap_cons, hf]
      rw [hstep, ih hnd']
      by_cases hname : name = k
      · subst hname
        simp [hk, hf]
      · simp [hname]
    | some v =>
      have hstep : (k :: ks).filterMap (fun q => (f q).map (fun v => (q, v))) =
          (k, v) :: ks.filterMap (fun q => (f q).map (fun v => (q, v))) := by
        simp [List.filterMap_cons, hf]
      rw [hstep]
      by_cases hname : name = k
      · subst hname
        simp [strLookup, hf]
      · have hkn : ¬ k = name := fun hh => hname hh.symm
        simp [strLookup, hkn, ih hnd', hname]

theorem desiredNames_nodup (sig : WantSignature) (numArgs : Nat)
    (kwargs addl : List (String × String)) :
    (desiredNames sig numArgs kwargs addl).Nodup := by
  unfold desiredNames
  cases hkw : sig.allKw <;>
    simp only [hkw, if_true, if_false, Bool.false_eq_true] <;>
    exact List.Nodup.filter _ (List.nodup_dedup _)

/-- C7: `WantSignature.__call__` builds its keyword map by looking up
each desired name in `additional` (overrides) first, then in the
available-value map, skipping names present in neither and passing no
other name (first conjunct, stated as an exact characterisation of the
constructed map); in particular a handler with signature
f(self, sub_id=None) invoked with one positional argument and available
values sub_id 1234 and other x receives exactly the keyword map
sub_id 1234 and never the name other (second conjunct). -/
theorem invoke_kwarg_selection :
    (∀ (sig : WantSignature) (numArgs : Nat) (kwargs addl : List (String × String))
        (name : String),
      strLookup (realKw sig numArgs kwargs addl) name =
        if name ∈ desiredNames sig numArgs kwargs addl then
          (strLookup addl name).orElse (fun _ => strLookup kwargs name)
        else none) ∧
    sigCall sigC7 1 [("sub_id", "1234"), ("other", "x")] [] =
      .ok (1, [("sub_id", "1234")]) := by
  constructor
  · intro sig numArgs kwargs addl name
    unfold realKw
    exact strLookup_filterMap _ _ (desiredNames_nodup sig numArgs kwargs addl) name
  · rfl

/-- C8: the dispatch decision after path walking, when no handler is
invoked (no matched method function, or path info remains and the
function does not want path_info) and no delegation applies: a
non-exhausted path or an empty methods map yields not-found, and an
exhausted path at a node with methods but no method matching the verb
(the verb translated through the HEAD-to-GET rule, with no null-verb
fallback) and a verb other than OPTIONS yields method-not-implemented
for that verb. -/
theorem dispatch_notfound_notimplemented (fuel : Nat) (st : Store)
    (wantsPI : Nat → Bool) (e : Nat) (pir : Bool) (uv : List (String × String))
    (verb : String)
    (hf : ∀ f, (micropathDelegation fuel st e verb).1 = some f →
        pir = true ∧ wantsPI f = false)
    (hd : (micropathDelegation fuel st e verb).2 = none) :
    ((pir = true ∨ (st e).methods = []) →
        dispatchDecision fuel st wantsPI e pir uv verb = .notFound) ∧
    (pir = false → (st e).methods ≠ [] → methLookup st e verb = none →
        verb ≠ "OPTIONS" →
        dispatchDecision fuel st wantsPI e pir uv verb = .notImplemented verb) := by
  have htail : ∀ hcase : pir = true ∨ (st e).methods = [],
      dispatchTail st e pir uv verb (micropathDelegation fuel st e verb).2 =
        .notFound := by
    intro hcase
    rw [hd]
    simp only [dispatchTail]
    rcases hcase with h | h
    · simp [h]
    · simp [h]
  constructor
  · intro hcase
    unfold dispatchDecision
    cases hm1 : (micropathDelegation fuel st e verb).1 with
    | some f =>
        obtain ⟨hpir, hw⟩ := hf f hm1
        have ht := htail hcase
        rw [hpir] at ht ⊢
        simp only [hw]
        simpa using ht
    | none => exact htail hcase
  · intro hpir hne' hml hverb
    have hm1 : (micropathDelegation fuel st e verb).1 = none := by
      simp [micropathDelegation, hml]
    unfold dispatchDecision
    rw [hm1, hd]
    simp only [dispatchTail]
    have hie : (st e).methods.isEmpty = false := by
      cases hmet : (st e).methods with
      | nil => exact absurd hmet hne'
      | cons a as => rfl
    have hvb : (verb == "OPTIONS") = false := by
      simp [hverb]
    simp [hpir, hie, hvb]

/-- Witness for the dispatch-decision theorem: a node whose methods map
holds only GET reports method-not-implemented for PUT. -/
theorem dispatch_notfound_notimplemented_witness :
    dispatchDecision 9 stC8 wPIfalse 0 false [] "PUT" = .notImplemented "PUT" := by
  have h := dispatch_notfound_notimplemented 9 stC8 wPIfalse 0 false [] "PUT"
    (fun f hfa => nomatch hfa) rfl
  exact h.2 rfl (by decide) rfl (by decide)

/-- C9: the available-verbs set of `_micropath_methods` contains exactly
the node's non-null verb keys, the baseline set when a null-verb
fallback method exists, HEAD whenever GET is available (from the keys or
through the baseline), and always OPTIONS (first conjunct); in
particular a node whose methods map is exactly GET yields the verb list
GET, HEAD, OPTIONS, and dispatching OPTIONS there reports the options
outcome with that list (remaining conjuncts). -/
theorem options_available_verbs :
    (∀ (st : Store) (e : Nat) (v : String),
      v ∈ micropathMethods st e ↔
        (v ∈ (st e).methods.filterMap Prod.fst ∨
         ((lookupKey (st e).methods none).isSome = true ∧ v ∈ defaultMethods) ∨
         (v = "HEAD" ∧ ("GET" ∈ (st e).methods.filterMap Prod.fst ∨
            (lookupKey (st e).methods none).isSome = true)) ∨
         v = "OPTIONS")) ∧
    micropathMethods stC9 0 = ["GET", "HEAD", "OPTIONS"] ∧
    dispatchDecision 9 stC9 wPIfalse 0 false [] "OPTIONS" =
      .options ["GET", "HEAD", "OPTIONS"] := by
  refine ⟨?_, rfl, rfl⟩
  intro st e v
  simp only [micropathMethods]
  cases hnull : (lookupKey (st e).methods none).isSome with
  | true =>
    have hgm : "GET" ∈ (st e).methods.filterMap Prod.fst ++ defaultMethods :=
      List.mem_append_right _ (by decide)
    simp [hgm, List.mem_append]
  | false =>
    by_cases hget : "GET" ∈ (st e).methods.filterMap Prod.fst
    · simp [hget, List.mem_append]
    · simp [hget, List.mem_append]

/-- C10: once a signature is cached on a callable
(`_micropath_signature` is set), every later `from_func` call for the
same callable returns the cached signature and leaves the cache
unchanged; the wrapped, provides, required and optional arguments of
the later call are ignored because the cache test guards the whole
computation. -/
theorem fromFunc_cached (getsig : Nat → RawSig) (fs : FuncState) (fid : Nat)
    (sig : WantSignature) (hc : fs fid = some sig)
    (wrapped : Option Nat) (provides : List String)
    (required optional : Option (List String)) :
    fromFunc getsig fs fid wrapped provides required optional = .ok (sig, fs) := by
  unfold fromFunc
  rw [hc]

/-- The first `from_func` call for callable 0 with the required-name
override x computes and caches the signature `sigW`. -/
theorem fromFunc_first_call :
    fromFunc getsigW fsEmpty 0 none [] (some ["x"]) none = .ok (sigW, fsW1) := by
  rfl

/-- Witness for the caching theorem: after the first call cached `sigW`,
a later call with different required and optional overrides returns the
cached signature unchanged. -/
theorem fromFunc_cached_witness :
    fromFunc getsigW fsW1 0 none [] (some ["y"]) (some ["z"]) = .ok (sigW, fsW1) :=
  fromFunc_cached getsigW fsW1 0 sigW rfl none [] (some ["y"]) (some ["z"])

end Micropath
